import Mathlib

/-!
# Verification of the AI-Research-Agent real-time fan-out hub

Shallow embedding of the WebSocket gateway (`src/gateway/src/index.js`)
and its client-side reconnection counterpart
(`src/frontend/src/services/websocket.ts`), with theorems checking the
natural-language specification against the code.
-/

namespace Gateway

/-- JSON values, as produced by `JSON.parse`.  Numbers are modelled as
integers; the hub never performs arithmetic on payload numbers, it only
compares them for `Map`-key equality and truthiness. -/
inductive JVal where
  | str : String → JVal
  | num : Int → JVal
  | bool : Bool → JVal
  | null : JVal
  | arr : List JVal → JVal
  | obj : List (String × JVal) → JVal
deriving Repr

-- Structural (boolean) equality on JSON values (mutually with lists of
-- values and lists of fields, so that it reduces by iota).
mutual
def JVal.beq : JVal → JVal → Bool
  | .str a, .str b => a == b
  | .num a, .num b => a == b
  | .bool a, .bool b => a == b
  | .null, .null => true
  | .arr as, .arr bs => JVal.beqL as bs
  | .obj as, .obj bs => JVal.beqO as bs
  | _, _ => false

def JVal.beqL : List JVal → List JVal → Bool
  | [], [] => true
  | a :: as, b :: bs => JVal.beq a b && JVal.beqL as bs
  | _, _ => false

def JVal.beqO : List (String × JVal) → List (String × JVal) → Bool
  | [], [] => true
  | (k, v) :: as, (l, w) :: bs => k == l && JVal.beq v w && JVal.beqO as bs
  | _, _ => false
end

mutual
theorem JVal.beq_iff : ∀ (a b : JVal), JVal.beq a b = true ↔ a = b
  | a, b => by
      cases a <;> cases b <;>
        first
          | (simp [JVal.beq]; done)
          | (rename_i as bs; simp [JVal.beq, JVal.beqL_iff as bs])
          | (rename_i as bs; simp [JVal.beq, JVal.beqO_iff as bs])

theorem JVal.beqL_iff : ∀ (as bs : List JVal), JVal.beqL as bs = true ↔ as = bs
  | [], [] => by simp [JVal.beqL]
  | [], _ :: _ => by simp [JVal.beqL]
  | _ :: _, [] => by simp [JVal.beqL]
  | a :: as, b :: bs => by
      simp [JVal.beqL, JVal.beq_iff a b, JVal.beqL_iff as bs]

theorem JVal.beqO_iff : ∀ (as bs : List (String × JVal)),
    JVal.beqO as bs = true ↔ as = bs
  | [], [] => by simp [JVal.beqO]
  | [], _ :: _ => by simp [JVal.beqO]
  | _ :: _, [] => by simp [JVal.beqO]
  | (k, v) :: as, (l, w) :: bs => by
      simp [JVal.beqO, JVal.beq_iff v w, JVal.beqO_iff as bs]
end

instance : DecidableEq JVal := fun a b => decidable_of_iff _ (JVal.beq_iff a b)

/-- A JSON object: association list of fields in insertion order. -/
abbrev JObj := List (String × JVal)

/-- JavaScript truthiness of a possibly-`undefined` value (`none` stands
for `undefined`): `undefined`, `null`, `false`, `0`, and `""` are falsy. -/
def truthy : Option JVal → Bool
  | none => false
  | some JVal.null => false
  | some (JVal.bool b) => b
  | some (JVal.num n) => n != 0
  | some (JVal.str s) => s ≠ ""
  | some (JVal.arr _) => true
  | some (JVal.obj _) => true

/-- Property read `v[k]` on a parsed JSON value, JavaScript semantics:
reading a property of `null` throws a `TypeError` (`Except.error`);
reading from a non-object yields `undefined` (`none`); reading from an
object looks the key up. -/
def jsField : JVal → String → Except Unit (Option JVal)
  | JVal.null, _ => Except.error ()
  | JVal.obj kvs, k => Except.ok (kvs.lookup k)
  | _, _ => Except.ok none

/-- JavaScript property assignment `o[k] = v` on an object literal:
replaces the value in place if the key exists, else appends. -/
def objAssign (o : JObj) (k : String) (v : JVal) : JObj :=
  if (o.lookup k).isSome then
    o.map (fun kv => if kv.1 = k then (k, v) else kv)
  else o ++ [(k, v)]

/-- Object spread `{ ...base, ...src }` restricted to what the gateway
uses: assign every field of `src` onto `base` in order. -/
def objSpread (base : JObj) (src : JObj) : JObj :=
  src.foldl (fun acc kv => objAssign acc kv.1 kv.2) base

/-! ## JavaScript `Map` and `Set`, modelled on association lists -/

namespace JSMap

variable {K V : Type} [DecidableEq K]

/-- `Map.prototype.get` -/
def get : List (K × V) → K → Option V
  | [], _ => none
  | (k', v) :: m, k => if k' = k then some v else get m k

/-- The keys of a map, in insertion order. -/
def keys (m : List (K × V)) : List K := m.map Prod.fst

/-- `Map.prototype.has` -/
def has (m : List (K × V)) (k : K) : Bool :=
  (get m k).isSome

/-- `Map.prototype.set`: overwrites in place, or appends a new entry. -/
def set : List (K × V) → K → V → List (K × V)
  | [], k, v => [(k, v)]
  | (k', v') :: m, k, v =>
      if k' = k then (k', v) :: m else (k', v') :: set m k v

/-- `Map.prototype.delete`: removes the entry for the key, if any. -/
def del : List (K × V) → K → List (K × V)
  | [], _ => []
  | (k', v') :: m, k => if k' = k then m else (k', v') :: del m k

end JSMap

namespace JSSet

variable {A : Type} [DecidableEq A]

/-- `Set.prototype.add`: appends unless already a member. -/
def add (s : List A) (x : A) : List A :=
  if x ∈ s then s else s ++ [x]

/-- `Set.prototype.delete`: removes the member. -/
def del (s : List A) (x : A) : List A :=
  s.filter (fun y => y ≠ x)

end JSSet

/-! ## Gateway state (`src/gateway/src/index.js`)

Connections are identified by a numeric id `cid`; the per-connection
attributes the code stores on the `ws` object (`ws.user.user_id`,
`ws.readyState`, `ws.subscribedSessions`) live in a `Conn` record, and the
two module-level maps `clientsByUser` / `clientsBySession` hold connection
ids.  A topic key is the value of a frame's `session_id` property:
`none` models JavaScript `undefined` (a frame with no such field). -/

/-- A WebSocket connection as the gateway sees it. `readyState = 1` is
`WebSocket.OPEN`. -/
structure Conn where
  cid : Nat
  userId : String
  readyState : Nat
  subscribedSessions : List (Option JVal)
deriving DecidableEq, Repr

/-- The gateway's module-level mutable state. -/
structure GState where
  conns : List Conn
  clientsByUser : List (String × List Nat)
  clientsBySession : List (Option JVal × List Nat)
deriving DecidableEq, Repr

/-- The state at process start: no connections, both maps empty. -/
def GState.init : GState :=
  { conns := [], clientsByUser := [], clientsBySession := [] }

/-- A message written to one connection's transport:
connection id paired with the JSON object passed to `ws.send`. -/
abbrev Send := Nat × JObj

/-- Look a connection record up by id. -/
def GState.conn (s : GState) (cid : Nat) : Option Conn :=
  s.conns.find? (fun c => c.cid = cid)

/-- Apply `f` to the `subscribedSessions` attribute of connection `cid`. -/
def setConnSubs (s : GState) (cid : Nat)
    (f : List (Option JVal) → List (Option JVal)) : GState :=
  { s with
    conns := s.conns.map (fun c =>
      if c.cid = cid then { c with subscribedSessions := f c.subscribedSessions } else c) }

/-- The decoded JWT payload; the gateway only ever reads `user_id`. -/
structure Claim where
  user_id : String
deriving DecidableEq, Repr

/-- `authenticateWS(request)`: extract the `token` query parameter and
verify it.  A missing or empty (falsy) token yields `null`; otherwise the
outcome of `jwt.verify` (`verify`, the cryptographic primitive, is a
parameter: `none` models a thrown verification error). -/
def authenticateWS (verify : String → Option Claim)
    (tokenQuery : Option String) : Option Claim :=
  match tokenQuery with
  | none => none
  | some token => if token = "" then none else verify token

/-- `wss.on('connection')` handler: track the connection under its user id
and send the `connected` confirmation. -/
def wssOnConnection (cid : Nat) (userId : String) (s : GState) :
    GState × List Send :=
  let byUser0 :=
    if JSMap.has s.clientsByUser userId then s.clientsByUser
    else JSMap.set s.clientsByUser userId []
  let byUser :=
    JSMap.set byUser0 userId (JSSet.add ((JSMap.get byUser0 userId).getD []) cid)
  let conn : Conn :=
    { cid := cid, userId := userId, readyState := 1, subscribedSessions := [] }
  ({ s with conns := s.conns ++ [conn], clientsByUser := byUser },
   [(cid, [("type", JVal.str "connected"),
           ("message", JVal.str "Connected to AI Research Gateway"),
           ("user_id", JVal.str userId)])])

/-- `server.on('upgrade')`: rejected upgrades write `401 Unauthorized` and
destroy the socket; accepted ones run the connection handler. -/
inductive UpgradeResult where
  | rejected
  | accepted (user : Claim)
deriving DecidableEq, Repr

/-- The upgrade gate composed with the connection handler. -/
def serverOnUpgrade (verify : String → Option Claim) (tokenQuery : Option String)
    (newCid : Nat) (s : GState) : UpgradeResult × GState × List Send :=
  match authenticateWS verify tokenQuery with
  | none => (UpgradeResult.rejected, s, [])
  | some user =>
      let r := wssOnConnection newCid user.user_id s
      (UpgradeResult.accepted user, r.1, r.2)

/-- The `subscribed` acknowledgement; `JSON.stringify` drops a field whose
value is `undefined`. -/
def subscribedAck (sid : Option JVal) : JObj :=
  [("type", JVal.str "subscribed")] ++
    (match sid with | none => [] | some v => [("session_id", v)])

/-- The `subscribe_session` branch of the message handler. -/
def subscribeStep (cid : Nat) (sid : Option JVal) (s : GState) :
    GState × List Send :=
  let bySess0 :=
    if JSMap.has s.clientsBySession sid then s.clientsBySession
    else JSMap.set s.clientsBySession sid []
  let bySess :=
    JSMap.set bySess0 sid (JSSet.add ((JSMap.get bySess0 sid).getD []) cid)
  (setConnSubs { s with clientsBySession := bySess } cid
     (fun subs => JSSet.add subs sid),
   [(cid, subscribedAck sid)])

/-- The `unsubscribe_session` branch of the message handler.  Note: the
topic's entry is not removed from the map even when its set becomes
empty. -/
def unsubscribeStep (cid : Nat) (sid : Option JVal) (s : GState) :
    GState × List Send :=
  let bySess :=
    if JSMap.has s.clientsBySession sid then
      JSMap.set s.clientsBySession sid
        (JSSet.del ((JSMap.get s.clientsBySession sid).getD []) cid)
    else s.clientsBySession
  (setConnSubs { s with clientsBySession := bySess } cid
     (fun subs => JSSet.del subs sid), [])

/-- `ws.on('message')`: parse the frame (`none` models a frame that is not
valid JSON, whose `JSON.parse` throws into the catch), read `msg.type`
(throws on `null`, caught), and run the two `if` branches in sequence. -/
def wsOnMessage (cid : Nat) (data : Option JVal) (s : GState) :
    GState × List Send :=
  match data with
  | none => (s, [])
  | some msg =>
    match jsField msg "type" with
    | Except.error _ => (s, [])
    | Except.ok ty =>
      let sid := ((jsField msg "session_id").toOption).getD none
      let r1 :=
        if ty = some (JVal.str "subscribe_session")
        then subscribeStep cid sid s else (s, [])
      let r2 :=
        if ty = some (JVal.str "unsubscribe_session")
        then unsubscribeStep cid sid r1.1 else (r1.1, [])
      (r2.1, r1.2 ++ r2.2)

/-- The close-time cleanup pattern the source uses for both indexes:
`if (map.has(key)) { map.get(key).delete(x); if (map.get(key).size === 0)
map.delete(key); }`. -/
def removeAndPrune {K : Type} [DecidableEq K]
    (m : List (K × List Nat)) (k : K) (x : Nat) : List (K × List Nat) :=
  if JSMap.has m k then
    let rest := JSSet.del ((JSMap.get m k).getD []) x
    let m1 := JSMap.set m k rest
    if rest.length = 0 then JSMap.del m1 k else m1
  else m

/-- `ws.on('close')`: drop the connection from the user index (pruning an
emptied user entry) and from every topic in its `subscribedSessions`
(pruning each emptied topic entry); the transport is now closed. -/
def wsOnClose (cid : Nat) (s : GState) : GState :=
  match s.conn cid with
  | none => s
  | some conn =>
    let userId := conn.userId
    let byUser := removeAndPrune s.clientsByUser userId cid
    let bySess :=
      conn.subscribedSessions.foldl (fun m sid => removeAndPrune m sid cid)
        s.clientsBySession
    { s with
      conns := s.conns.map (fun c =>
        if c.cid = cid then { c with readyState := 3 } else c),
      clientsByUser := byUser,
      clientsBySession := bySess }

/-- The payload built for subscribers: `{ type: 'session_update', ...update }`.
The `type` marker is assigned first, then every envelope field is spread
over it — so an envelope field named `type` overwrites the marker. -/
def sessionUpdatePayload (update : JObj) : JObj :=
  objSpread [("type", JVal.str "session_update")] update

/-- `redisSubscriber.on('message')`: decode the envelope (`none` models an
undecodable message), read `update.session_id`, and when it is truthy and
has subscribers, send the payload to every subscriber whose transport is
open.  The handler never mutates the registry. -/
def redisOnMessage (data : Option JVal) (s : GState) : List Send :=
  match data with
  | none => []
  | some update =>
    match jsField update "session_id" with
    | Except.error _ => []
    | Except.ok sid =>
      if truthy sid && JSMap.has s.clientsBySession sid then
        match update with
        | JVal.obj kvs =>
            let payload := sessionUpdatePayload kvs
            ((JSMap.get s.clientsBySession sid).getD []).filterMap (fun cid =>
              match s.conn cid with
              | some c => if c.readyState = 1 then some (cid, payload) else none
              | none => none)
        | _ => []
      else []

/-- The broadcast handler as a state transition: its body reads the
registry through `has`/`get` only and writes only to subscriber
transports, so the registry state it returns is the one it was given. -/
def redisStep (data : Option JVal) (s : GState) : GState × List Send :=
  (s, redisOnMessage data s)

end Gateway

namespace Client

open Gateway (JVal JObj)

/-! ## Reconnecting client (`src/frontend/src/services/websocket.ts`)

`WebSocketService` keeps a failure counter (`reconnectAttempts`), a cap
(`maxReconnectAttempts = 5`), and one pending reconnect timer.  It keeps
no record of the topics previously subscribed to. -/

/-- The mutable state of `WebSocketService` that the reconnection logic
reads and writes. -/
structure ClientState where
  reconnectAttempts : Nat
deriving DecidableEq, Repr

/-- `maxReconnectAttempts` -/
def maxReconnectAttempts : Nat := 5

/-- Observable actions of a handler: a local event dispatched through
`emit`, or a frame written to the socket with `this.ws.send`. -/
inductive ClientAction where
  | emitEvt (ty : String)
  | sendFrame (frame : JObj)
deriving DecidableEq, Repr

/-- Is this action a socket write? -/
def ClientAction.isFrame : ClientAction → Bool
  | .sendFrame _ => true
  | _ => false

/-- `ws.onopen`: reset the failure counter and emit the local `connected`
event; the handler writes nothing to the socket. -/
def onopen (st : ClientState) : ClientState × List ClientAction :=
  ({ st with reconnectAttempts := 0 }, [ClientAction.emitEvt "connected"])

/-- `attemptReconnect`: return without scheduling once the counter has
reached `maxReconnectAttempts`; otherwise increment it and schedule
`connect` after `Math.min(1000 * Math.pow(2, reconnectAttempts), 30000)`
milliseconds (the returned value). -/
def attemptReconnect (st : ClientState) : ClientState × Option Nat :=
  if st.reconnectAttempts ≥ maxReconnectAttempts then (st, none)
  else
    let a := st.reconnectAttempts + 1
    ({ st with reconnectAttempts := a }, some (min (1000 * 2 ^ a) 30000))

/-- `ws.onclose`: emit `disconnected`, then run `attemptReconnect`. -/
def onclose (st : ClientState) : ClientState × List ClientAction × Option Nat :=
  let r := attemptReconnect st
  (r.1, [ClientAction.emitEvt "disconnected"], r.2)

/-- `subscribeSession` through the private `send`: the frame is written
only when the socket is currently open. -/
def subscribeSession (wsOpen : Bool) (sessionId : String) : List ClientAction :=
  if wsOpen then
    [ClientAction.sendFrame
       [("type", JVal.str "subscribe_session"),
        ("session_id", JVal.str sessionId)]]
  else []

/-- The delay scheduled before the n-th reconnection attempt. -/
def reconnectDelay (n : Nat) : Nat :=
  min (1000 * 2 ^ n) 30000

end Client

namespace Gateway

/-! ## Reachable gateway states

The events that mutate the module-level state, as a reachability
predicate: process start, an accepted upgrade (`wss.emit('connection')`
with a fresh socket object), an inbound frame on a connection that
completed the connection handler, and a transport close.  The broadcast
handler does not mutate the state (`redisStep`). -/

/-- States the gateway process can be in. -/
inductive Reach : GState → Prop where
  | init : Reach GState.init
  | connect {s : GState} (cid : Nat) (userId : String) :
      Reach s → (∀ c ∈ s.conns, c.cid ≠ cid) →
      Reach (wssOnConnection cid userId s).1
  | message {s : GState} (cid : Nat) (data : Option JVal) :
      Reach s → (s.conn cid).isSome = true →
      Reach (wsOnMessage cid data s).1
  | close {s : GState} (cid : Nat) :
      Reach s → Reach (wsOnClose cid s)

/-- The topic index is in sync with the per-connection subscription sets:
every member of a topic's subscriber set is a tracked connection whose
`subscribedSessions` contains the topic. -/
def Coupled (s : GState) : Prop :=
  ∀ T l, JSMap.get s.clientsBySession T = some l →
    ∀ cid ∈ l, ∃ c, s.conn cid = some c ∧ T ∈ c.subscribedSessions

/-- Structural invariant of the registry: both indexes have duplicate-free
keys, connection ids are unique, and the topic index is coupled to the
per-connection subscription sets. -/
def Inv (s : GState) : Prop :=
  (JSMap.keys s.clientsByUser).Nodup ∧
  (JSMap.keys s.clientsBySession).Nodup ∧
  (s.conns.map Conn.cid).Nodup ∧
  Coupled s

/-! ## Concrete scenario states (used by witnesses and counterexamples) -/

/-- The client frame `{"type":"subscribe_session","session_id":T}`. -/
def subFrame (T : String) : JVal :=
  .obj [("type", .str "subscribe_session"), ("session_id", .str T)]

/-- The client frame `{"type":"unsubscribe_session","session_id":T}`. -/
def unsubFrame (T : String) : JVal :=
  .obj [("type", .str "unsubscribe_session"), ("session_id", .str T)]

/-- One connection (id 0, user `u1`) has completed the handshake. -/
def exConn0 : GState := (wssOnConnection 0 "u1" GState.init).1

/-- ... and then subscribed to topic `s1`. -/
def exSub : GState := (wsOnMessage 0 (some (subFrame "s1")) exConn0).1

/-- ... and then unsubscribed from `s1` again. -/
def exUnsub : GState := (wsOnMessage 0 (some (unsubFrame "s1")) exSub).1

/-! ## Lemmas about the map and set models -/

namespace JSMap

variable {K V : Type} [DecidableEq K]

theorem get_set_self (m : List (K × V)) (k : K) (v : V) :
    get (set m k v) k = some v := by
  induction m with
  | nil => simp [get, set]
  | cons kv m ih =>
      obtain ⟨k', v'⟩ := kv
      by_cases h : k' = k <;> simp [get, set, h, ih]

theorem get_set_ne (m : List (K × V)) (k : K) (v : V) (k2 : K) (h : k2 ≠ k) :
    get (set m k v) k2 = get m k2 := by
  induction m with
  | nil => simp [get, set, Ne.symm h]
  | cons kv m ih =>
      obtain ⟨k', v'⟩ := kv
      by_cases h1 : k' = k <;> by_cases h2 : k' = k2 <;>
        simp_all [get, set]

theorem get_eq_none_iff (m : List (K × V)) (k : K) :
    get m k = none ↔ k ∉ keys m := by
  induction m with
  | nil => simp [get, keys]
  | cons kv m ih =>
      obtain ⟨k', v'⟩ := kv
      by_cases h : k' = k <;> simp_all [get, keys, eq_comm]

theorem has_false_get (m : List (K × V)) (k : K) (h : has m k = false) :
    get m k = none := by
  cases hg : get m k with
  | none => rfl
  | some v => rw [has, hg] at h; simp at h

theorem keys_set_mem (m : List (K × V)) (k : K) (v : V) (hk : k ∈ keys m) :
    keys (set m k v) = keys m := by
  induction m with
  | nil => simp [keys] at hk
  | cons kv m ih =>
      obtain ⟨k', v'⟩ := kv
      simp only [keys, List.map_cons, List.mem_cons] at hk
      by_cases h : k' = k
      · simp [set, h, keys]
      · have hk2 : k ∈ keys m := by
          rcases hk with h1 | h1
          · exact absurd h1.symm h
          · exact h1
        have h2 := ih hk2
        simp only [keys] at h2
        simp [set, h, keys, h2]

theorem keys_set_not_mem (m : List (K × V)) (k : K) (v : V) (hk : k ∉ keys m) :
    keys (set m k v) = keys m ++ [k] := by
  induction m with
  | nil => simp [keys, set]
  | cons kv m ih =>
      obtain ⟨k', v'⟩ := kv
      by_cases h : k' = k <;> simp_all [keys, set, eq_comm]

theorem keys_nodup_set (m : List (K × V)) (k : K) (v : V)
    (h : (keys m).Nodup) : (keys (set m k v)).Nodup := by
  by_cases hk : k ∈ keys m
  · rw [keys_set_mem m k v hk]; exact h
  · rw [keys_set_not_mem m k v hk]
    simpa [List.nodup_append] using ⟨h, hk⟩

theorem keys_del_sublist (m : List (K × V)) (k : K) :
    (keys (del m k)).Sublist (keys m) := by
  induction m with
  | nil => simp [del, keys]
  | cons kv m ih =>
      obtain ⟨k', v'⟩ := kv
      by_cases h : k' = k
      · simp only [del, if_pos h, keys, List.map_cons]
        exact List.Sublist.cons k' (List.Sublist.refl _)
      · simpa [del, h, keys] using ih.cons₂ k'

theorem keys_nodup_del (m : List (K × V)) (k : K)
    (h : (keys m).Nodup) : (keys (del m k)).Nodup :=
  (keys_del_sublist m k).nodup h

theorem get_del_self (m : List (K × V)) (k : K) (h : (keys m).Nodup) :
    get (del m k) k = none := by
  induction m with
  | nil => simp [del, get]
  | cons kv m ih =>
      obtain ⟨k', v'⟩ := kv
      simp only [keys, List.map_cons, List.nodup_cons] at h
      by_cases hk : k' = k
      · subst hk
        rw [del, if_pos rfl, get_eq_none_iff]
        exact h.1
      · rw [del, if_neg hk, get, if_neg hk]
        exact ih h.2

theorem get_del_ne (m : List (K × V)) (k k2 : K) (h : k2 ≠ k) :
    get (del m k) k2 = get m k2 := by
  induction m with
  | nil => simp [del]
  | cons kv m ih =>
      obtain ⟨k', v'⟩ := kv
      by_cases h1 : k' = k <;> by_cases h2 : k' = k2 <;>
        simp_all [get, del]

end JSMap

namespace JSSet

variable {A : Type} [DecidableEq A]

theorem mem_add (s : List A) (x y : A) : y ∈ add s x ↔ y ∈ s ∨ y = x := by
  by_cases h : x ∈ s
  · simp only [add, if_pos h]
    constructor
    · exact Or.inl
    · rintro (hy | rfl) <;> assumption
  · simp [add, if_neg h]

theorem self_mem_add (s : List A) (x : A) : x ∈ add s x := by
  simp [mem_add]

theorem mem_del (s : List A) (x y : A) : y ∈ del s x ↔ y ∈ s ∧ y ≠ x := by
  simp [del]

theorem not_mem_del (s : List A) (x : A) : x ∉ del s x := by
  simp [mem_del]

theorem del_subset (s : List A) (x : A) : del s x ⊆ s := by
  intro y hy
  exact ((mem_del s x y).1 hy).1

theorem del_nil_of_singleton (x : A) : del [x] x = [] := by
  simp [del]

end JSSet

/-! ## Lemmas about connection lookup and the handler steps -/

theorem find_cid_map (l : List Conn) (cid2 : Nat) (g : Conn → Conn)
    (hg : ∀ c, (g c).cid = c.cid) :
    (l.map g).find? (fun c => c.cid = cid2)
      = (l.find? (fun c => c.cid = cid2)).map g := by
  induction l with
  | nil => rfl
  | cons c0 l ih =>
      by_cases h : c0.cid = cid2
      · simp [List.find?_cons, hg, h]
      · simp [List.find?_cons, hg, h, ih]

theorem conn_cid (s : GState) (cid : Nat) (c : Conn) (h : s.conn cid = some c) :
    c.cid = cid := by
  have := List.find?_some h
  simpa using this

theorem conn_setConnSubs (s : GState) (cid cid2 : Nat)
    (f : List (Option JVal) → List (Option JVal)) :
    (setConnSubs s cid f).conn cid2
      = (s.conn cid2).map (fun c =>
          if c.cid = cid then { c with subscribedSessions := f c.subscribedSessions }
          else c) := by
  unfold setConnSubs GState.conn
  exact find_cid_map s.conns cid2 _ (fun c => by by_cases h : c.cid = cid <;> simp [h])

theorem conn_subscribeStep (s : GState) (cid cid2 : Nat) (sid : Option JVal) :
    (subscribeStep cid sid s).1.conn cid2
      = (s.conn cid2).map (fun c =>
          if c.cid = cid then
            { c with subscribedSessions := JSSet.add c.subscribedSessions sid }
          else c) := by
  simp [subscribeStep, conn_setConnSubs, GState.conn]
  exact find_cid_map s.conns cid2 _ (fun c => by by_cases h : c.cid = cid <;> simp [h])

theorem conn_unsubscribeStep (s : GState) (cid cid2 : Nat) (sid : Option JVal) :
    (unsubscribeStep cid sid s).1.conn cid2
      = (s.conn cid2).map (fun c =>
          if c.cid = cid then
            { c with subscribedSessions := JSSet.del c.subscribedSessions sid }
          else c) := by
  simp [unsubscribeStep, conn_setConnSubs, GState.conn]
  exact find_cid_map s.conns cid2 _ (fun c => by by_cases h : c.cid = cid <;> simp [h])

theorem conn_subscribeStep_self (s : GState) (cid : Nat) (sid : Option JVal)
    (c : Conn) (hc : s.conn cid = some c) :
    (subscribeStep cid sid s).1.conn cid
      = some { c with subscribedSessions := JSSet.add c.subscribedSessions sid } := by
  rw [conn_subscribeStep, hc]
  simp [conn_cid s cid c hc]

theorem conn_subscribeStep_other (s : GState) (cid cid2 : Nat) (sid : Option JVal)
    (c : Conn) (hc : s.conn cid2 = some c) (hne : c.cid ≠ cid) :
    (subscribeStep cid sid s).1.conn cid2 = some c := by
  rw [conn_subscribeStep, hc]
  simp [hne]

theorem conn_unsubscribeStep_self (s : GState) (cid : Nat) (sid : Option JVal)
    (c : Conn) (hc : s.conn cid = some c) :
    (unsubscribeStep cid sid s).1.conn cid
      = some { c with subscribedSessions := JSSet.del c.subscribedSessions sid } := by
  rw [conn_unsubscribeStep, hc]
  simp [conn_cid s cid c hc]

theorem conn_unsubscribeStep_other (s : GState) (cid cid2 : Nat) (sid : Option JVal)
    (c : Conn) (hc : s.conn cid2 = some c) (hne : c.cid ≠ cid) :
    (unsubscribeStep cid sid s).1.conn cid2 = some c := by
  rw [conn_unsubscribeStep, hc]
  simp [hne]

theorem subscribeStep_get_self (s : GState) (cid : Nat) (sid : Option JVal) :
    JSMap.get (subscribeStep cid sid s).1.clientsBySession sid
      = some (JSSet.add
          ((JSMap.get (if JSMap.has s.clientsBySession sid then s.clientsBySession
                       else JSMap.set s.clientsBySession sid []) sid).getD []) cid) := by
  simp [subscribeStep, setConnSubs, JSMap.get_set_self]

theorem subscribeStep_get_mem (s : GState) (cid : Nat) (sid : Option JVal) :
    ∃ l, JSMap.get (subscribeStep cid sid s).1.clientsBySession sid = some l
      ∧ cid ∈ l := by
  exact ⟨_, subscribeStep_get_self s cid sid, JSSet.self_mem_add _ _⟩

theorem subscribeStep_get_ne (s : GState) (cid : Nat) (sid T : Option JVal)
    (h : T ≠ sid) :
    JSMap.get (subscribeStep cid sid s).1.clientsBySession T
      = JSMap.get s.clientsBySession T := by
  by_cases hh : JSMap.has s.clientsBySession sid <;>
    simp [subscribeStep, setConnSubs, hh, JSMap.get_set_ne _ _ _ _ h]

theorem subscribeStep_sends (s : GState) (cid : Nat) (sid : Option JVal) :
    (subscribeStep cid sid s).2 = [(cid, subscribedAck sid)] := rfl

theorem unsubscribeStep_get (s : GState) (cid : Nat) (sid : Option JVal) (l : List Nat)
    (h : JSMap.get s.clientsBySession sid = some l) :
    JSMap.get (unsubscribeStep cid sid s).1.clientsBySession sid
      = some (JSSet.del l cid) := by
  have hh : JSMap.has s.clientsBySession sid = true := by
    simp [JSMap.has, h]
  simp [unsubscribeStep, setConnSubs, hh, h, JSMap.get_set_self]

theorem unsubscribeStep_get_ne (s : GState) (cid : Nat) (sid T : Option JVal)
    (h : T ≠ sid) :
    JSMap.get (unsubscribeStep cid sid s).1.clientsBySession T
      = JSMap.get s.clientsBySession T := by
  by_cases hh : JSMap.has s.clientsBySession sid <;>
    simp [unsubscribeStep, setConnSubs, hh, JSMap.get_set_ne _ _ _ _ h]

theorem wsOnMessage_subFrame (cid : Nat) (T : String) (s : GState) :
    wsOnMessage cid (some (subFrame T)) s = subscribeStep cid (some (JVal.str T)) s := by
  simp [wsOnMessage, subFrame, jsField, List.lookup, Except.toOption]

theorem wsOnMessage_unsubFrame (cid : Nat) (T : String) (s : GState) :
    wsOnMessage cid (some (unsubFrame T)) s
      = unsubscribeStep cid (some (JVal.str T)) s := by
  simp [wsOnMessage, unsubFrame, jsField, List.lookup, Except.toOption]

/-! ## Lemmas about the spread payload and the fan-out -/

theorem lookup_append_none {β : Type} (l1 l2 : List (String × β)) (k : String)
    (h : List.lookup k l1 = none) : List.lookup k (l1 ++ l2) = List.lookup k l2 := by
  induction l1 with
  | nil => simp
  | cons kv l1 ih =>
      obtain ⟨k1, v1⟩ := kv
      cases hbeq : (k == k1) with
      | true => simp [List.lookup_cons, hbeq] at h
      | false =>
          simp only [List.cons_append, List.lookup_cons, hbeq] at h ⊢
          exact ih h

theorem objAssign_append (o : JObj) (k : String) (v : JVal)
    (h : List.lookup k o = none) : objAssign o k v = o ++ [(k, v)] := by
  simp [objAssign, h]

theorem objSpread_of_fresh (src : JObj) : ∀ base : JObj,
    (∀ k ∈ src.map Prod.fst, List.lookup k base = none) →
    (src.map Prod.fst).Nodup →
    objSpread base src = base ++ src := by
  induction src with
  | nil => intro base _ _; simp [objSpread]
  | cons kv src ih =>
      obtain ⟨k, v⟩ := kv
      intro base h hnd
      simp only [List.map_cons, List.nodup_cons] at hnd
      have hstep : objSpread base ((k, v) :: src)
          = objSpread (objAssign base k v) src := rfl
      rw [hstep, objAssign_append base k v (h k (by simp))]
      have h2 : ∀ k2 ∈ src.map Prod.fst, List.lookup k2 (base ++ [(k, v)]) = none := by
        intro k2 hk2
        have hne : k2 ≠ k := fun hh => hnd.1 (hh ▸ hk2)
        rw [lookup_append_none _ _ _ (h k2 (by simp [hk2]))]
        have hbeq : (k2 == k) = false := beq_eq_false_iff_ne.mpr hne
        simp [List.lookup_cons, hbeq]
      rw [ih (base ++ [(k, v)]) h2 hnd.2]
      simp

theorem sessionUpdatePayload_fresh (kvs : JObj)
    (hnd : (kvs.map Prod.fst).Nodup) (hty : "type" ∉ kvs.map Prod.fst) :
    sessionUpdatePayload kvs = ("type", JVal.str "session_update") :: kvs := by
  rw [sessionUpdatePayload, objSpread_of_fresh kvs _ ?_ hnd]
  · rfl
  · intro k hk
    have hne : k ≠ "type" := fun hh => hty (hh ▸ hk)
    have hbeq : (k == "type") = false := beq_eq_false_iff_ne.mpr hne
    simp [List.lookup_cons, hbeq]

/-! ## Lemmas about the close-time cleanup -/

section RemovePrune

variable {K : Type} [DecidableEq K]

theorem removeAndPrune_get_self (m : List (K × List Nat)) (k : K) (x : Nat)
    (hnd : (JSMap.keys m).Nodup) :
    ∀ l, JSMap.get (removeAndPrune m k x) k = some l → x ∉ l ∧ l ≠ [] := by
  intro l hl
  by_cases hh : JSMap.has m k
  · simp only [removeAndPrune, if_pos hh] at hl
    by_cases hlen :
        (JSSet.del ((JSMap.get m k).getD []) x).length = 0
    · rw [if_pos hlen] at hl
      rw [JSMap.get_del_self _ _ (JSMap.keys_nodup_set m k _ hnd)] at hl
      exact absurd hl (by simp)
    · rw [if_neg hlen] at hl
      rw [JSMap.get_set_self] at hl
      obtain rfl : l = JSSet.del ((JSMap.get m k).getD []) x :=
        (Option.some.inj hl).symm
      refine ⟨JSSet.not_mem_del _ _, ?_⟩
      intro hnil
      exact hlen (by rw [hnil]; rfl)
  · simp only [removeAndPrune, if_neg hh] at hl
    rw [JSMap.has_false_get m k (by simpa using hh)] at hl
    exact absurd hl (by simp)

theorem removeAndPrune_get_ne (m : List (K × List Nat)) (k : K) (x : Nat)
    (k2 : K) (h : k2 ≠ k) :
    JSMap.get (removeAndPrune m k x) k2 = JSMap.get m k2 := by
  by_cases hh : JSMap.has m k
  · simp only [removeAndPrune, if_pos hh]
    by_cases hlen : (JSSet.del ((JSMap.get m k).getD []) x).length = 0
    · rw [if_pos hlen, JSMap.get_del_ne _ _ _ h, JSMap.get_set_ne _ _ _ _ h]
    · rw [if_neg hlen, JSMap.get_set_ne _ _ _ _ h]
  · simp only [removeAndPrune, if_neg hh]

theorem removeAndPrune_keys_nodup (m : List (K × List Nat)) (k : K) (x : Nat)
    (hnd : (JSMap.keys m).Nodup) :
    (JSMap.keys (removeAndPrune m k x)).Nodup := by
  by_cases hh : JSMap.has m k
  · simp only [removeAndPrune, if_pos hh]
    by_cases hlen : (JSSet.del ((JSMap.get m k).getD []) x).length = 0
    · rw [if_pos hlen]
      exact JSMap.keys_nodup_del _ _ (JSMap.keys_nodup_set m k _ hnd)
    · rw [if_neg hlen]
      exact JSMap.keys_nodup_set m k _ hnd
  · simpa only [removeAndPrune, if_neg hh] using hnd

theorem removeAndPrune_get_sub (m : List (K × List Nat)) (k : K) (x : Nat)
    (hnd : (JSMap.keys m).Nodup) :
    ∀ k2 l, JSMap.get (removeAndPrune m k x) k2 = some l →
      ∃ l0, JSMap.get m k2 = some l0 ∧ l ⊆ l0 := by
  intro k2 l hl
  by_cases hk : k2 = k
  · subst hk
    by_cases hh : JSMap.has m k2
    · obtain ⟨l0, hl0⟩ : ∃ l0, JSMap.get m k2 = some l0 := by
        cases hg : JSMap.get m k2 with
        | none => rw [JSMap.has, hg] at hh; simp at hh
        | some l0 => exact ⟨l0, rfl⟩
      simp only [removeAndPrune, if_pos hh, hl0, Option.getD_some] at hl
      by_cases hlen : (JSSet.del l0 x).length = 0
      · rw [if_pos hlen] at hl
        rw [JSMap.get_del_self _ _ (JSMap.keys_nodup_set m k2 _ hnd)] at hl
        exact absurd hl (by simp)
      · rw [if_neg hlen, JSMap.get_set_self] at hl
        obtain rfl : l = JSSet.del l0 x := (Option.some.inj hl).symm
        exact ⟨l0, hl0, JSSet.del_subset l0 x⟩
    · simp only [removeAndPrune, if_neg hh] at hl
      exact ⟨l, hl, fun a ha => ha⟩
  · rw [removeAndPrune_get_ne m k x k2 hk] at hl
    exact ⟨l, hl, fun a ha => ha⟩

theorem removeAndPrune_get_singleton (m : List (K × List Nat)) (k : K) (x : Nat)
    (hnd : (JSMap.keys m).Nodup) (h : JSMap.get m k = some [x]) :
    JSMap.get (removeAndPrune m k x) k = none := by
  have hh : JSMap.has m k = true := by simp [JSMap.has, h]
  have hrest : JSSet.del ((JSMap.get m k).getD []) x = [] := by
    rw [h]
    exact JSSet.del_nil_of_singleton x
  simp only [removeAndPrune, if_pos hh, hrest, List.length_nil, if_pos rfl]
  exact JSMap.get_del_self _ _ (JSMap.keys_nodup_set m k _ hnd)

end RemovePrune

section FoldCleanup

theorem foldRP_keys_nodup (x : Nat) :
    ∀ (sids : List (Option JVal)) (m : List (Option JVal × List Nat)),
      (JSMap.keys m).Nodup →
      (JSMap.keys (sids.foldl (fun m2 sid => removeAndPrune m2 sid x) m)).Nodup := by
  intro sids
  induction sids with
  | nil => intro m hm; exact hm
  | cons sid sids ih =>
      intro m hm
      exact ih _ (removeAndPrune_keys_nodup m sid x hm)

theorem foldRP_get_not_mem (x : Nat) :
    ∀ (sids : List (Option JVal)) (m : List (Option JVal × List Nat))
      (T : Option JVal), T ∉ sids →
      JSMap.get (sids.foldl (fun m2 sid => removeAndPrune m2 sid x) m) T
        = JSMap.get m T := by
  intro sids
  induction sids with
  | nil => intro m T _; rfl
  | cons sid sids ih =>
      intro m T hT
      rw [List.foldl_cons, ih _ T (fun hh => hT (List.mem_cons_of_mem _ hh)),
        removeAndPrune_get_ne m sid x T (fun hh => hT (hh ▸ List.mem_cons_self _ _))]

theorem foldRP_prunes (x : Nat) :
    ∀ (sids : List (Option JVal)) (m : List (Option JVal × List Nat))
      (T : Option JVal), (JSMap.keys m).Nodup → T ∈ sids →
      ∀ l, JSMap.get (sids.foldl (fun m2 sid => removeAndPrune m2 sid x) m) T = some l →
        x ∉ l ∧ l ≠ [] := by
  intro sids
  induction sids with
  | nil => intro m T _ hT; exact absurd hT (List.not_mem_nil T)
  | cons sid sids ih =>
      intro m T hnd hT l hl
      rw [List.foldl_cons] at hl
      by_cases hTs : T ∈ sids
      · exact ih _ T (removeAndPrune_keys_nodup m sid x hnd) hTs l hl
      · have hTsid : T = sid := by
          rcases List.mem_cons.1 hT with h1 | h1
          · exact h1
          · exact absurd h1 hTs
        subst hTsid
        rw [foldRP_get_not_mem x sids _ T hTs] at hl
        exact removeAndPrune_get_self m T x hnd l hl

theorem foldRP_no_x (x : Nat) :
    ∀ (sids : List (Option JVal)) (m : List (Option JVal × List Nat)),
      (JSMap.keys m).Nodup →
      (∀ T l, JSMap.get m T = some l → x ∈ l → T ∈ sids) →
      ∀ T l, JSMap.get (sids.foldl (fun m2 sid => removeAndPrune m2 sid x) m) T = some l →
        x ∉ l := by
  intro sids
  induction sids with
  | nil =>
      intro m _ hpre T l hl hx
      exact absurd (hpre T l hl hx) (List.not_mem_nil T)
  | cons sid sids ih =>
      intro m hnd hpre T l hl
      rw [List.foldl_cons] at hl
      refine ih _ (removeAndPrune_keys_nodup m sid x hnd) ?_ T l hl
      intro T2 l2 hl2 hx2
      by_cases hT2 : T2 = sid
      · subst hT2
        exact absurd hx2 ((removeAndPrune_get_self m T2 x hnd l2 hl2).1)
      · rw [removeAndPrune_get_ne m sid x T2 hT2] at hl2
        rcases List.mem_cons.1 (hpre T2 l2 hl2 hx2) with h1 | h1
        · exact absurd h1 hT2
        · exact h1

theorem foldRP_get_sub (x : Nat) :
    ∀ (sids : List (Option JVal)) (m : List (Option JVal × List Nat)),
      (JSMap.keys m).Nodup →
      ∀ T l, JSMap.get (sids.foldl (fun m2 sid => removeAndPrune m2 sid x) m) T = some l →
        ∃ l0, JSMap.get m T = some l0 ∧ l ⊆ l0 := by
  intro sids
  induction sids with
  | nil => intro m _ T l hl; exact ⟨l, hl, fun a ha => ha⟩
  | cons sid sids ih =>
      intro m hnd T l hl
      rw [List.foldl_cons] at hl
      obtain ⟨l1, hl1, hsub1⟩ :=
        ih _ (removeAndPrune_keys_nodup m sid x hnd) T l hl
      obtain ⟨l0, hl0, hsub0⟩ := removeAndPrune_get_sub m sid x hnd T l1 hl1
      exact ⟨l0, hl0, fun a ha => hsub0 (hsub1 ha)⟩

end FoldCleanup

/-! ## Shape lemmas for the close handler -/

theorem wsOnClose_of_none (s : GState) (cid : Nat) (h : s.conn cid = none) :
    wsOnClose cid s = s := by
  simp [wsOnClose, h]

theorem wsOnClose_clientsBySession (s : GState) (cid : Nat) (c : Conn)
    (h : s.conn cid = some c) :
    (wsOnClose cid s).clientsBySession
      = c.subscribedSessions.foldl (fun m sid => removeAndPrune m sid cid)
          s.clientsBySession := by
  simp [wsOnClose, h]

theorem wsOnClose_clientsByUser (s : GState) (cid : Nat) (c : Conn)
    (h : s.conn cid = some c) :
    (wsOnClose cid s).clientsByUser
      = removeAndPrune s.clientsByUser c.userId cid := by
  simp [wsOnClose, h]

theorem conn_wsOnClose (s : GState) (cid cid2 : Nat) (c : Conn)
    (h : s.conn cid = some c) :
    (wsOnClose cid s).conn cid2
      = (s.conn cid2).map (fun c2 =>
          if c2.cid = cid then { c2 with readyState := 3 } else c2) := by
  have hconns : (wsOnClose cid s).conns
      = s.conns.map (fun c2 =>
          if c2.cid = cid then { c2 with readyState := 3 } else c2) := by
    simp [wsOnClose, h]
  unfold GState.conn
  rw [hconns]
  exact find_cid_map s.conns cid2 _ (fun c2 => by by_cases hh : c2.cid = cid <;> simp [hh])

theorem conn_wsOnClose_self (s : GState) (cid : Nat) (c : Conn)
    (h : s.conn cid = some c) :
    (wsOnClose cid s).conn cid = some { c with readyState := 3 } := by
  rw [conn_wsOnClose s cid cid c h, h]
  simp [conn_cid s cid c h]

theorem conn_wsOnClose_other (s : GState) (cid cid2 : Nat) (c0 c : Conn)
    (h : s.conn cid = some c0) (hc : s.conn cid2 = some c) (hne : c.cid ≠ cid) :
    (wsOnClose cid s).conn cid2 = some c := by
  rw [conn_wsOnClose s cid cid2 c0 h, hc]
  simp [hne]

/-! ## Preservation of the registry invariant over reachable states -/

theorem inv_init : Inv GState.init := by
  refine ⟨List.nodup_nil, List.nodup_nil, List.nodup_nil, ?_⟩
  intro T l hl
  simp [GState.init, JSMap.get] at hl

theorem conn_wssOnConnection_found (cid : Nat) (uid : String) (s : GState)
    (cid2 : Nat) (c : Conn) (h : s.conn cid2 = some c) :
    (wssOnConnection cid uid s).1.conn cid2 = some c := by
  have e : (wssOnConnection cid uid s).1.conns
      = s.conns ++ [{ cid := cid, userId := uid, readyState := 1,
                      subscribedSessions := [] }] := rfl
  unfold GState.conn
  rw [e, List.find?_append]
  have h2 : s.conns.find? (fun c2 => c2.cid = cid2) = some c := h
  rw [h2]
  rfl

theorem inv_connect (s : GState) (cid : Nat) (uid : String)
    (h : Inv s) (hfresh : ∀ c ∈ s.conns, c.cid ≠ cid) :
    Inv (wssOnConnection cid uid s).1 := by
  obtain ⟨hu, hsk, hcids, hcp⟩ := h
  refine ⟨?_, hsk, ?_, ?_⟩
  · have h0 : (JSMap.keys (if JSMap.has s.clientsByUser uid then s.clientsByUser
        else JSMap.set s.clientsByUser uid [])).Nodup := by
      by_cases hh : JSMap.has s.clientsByUser uid
      · rw [if_pos hh]; exact hu
      · rw [if_neg hh]; exact JSMap.keys_nodup_set _ _ _ hu
    exact JSMap.keys_nodup_set _ _ _ h0
  · have e : (wssOnConnection cid uid s).1.conns
        = s.conns ++ [{ cid := cid, userId := uid, readyState := 1,
                        subscribedSessions := [] }] := rfl
    rw [e, List.map_append]
    rw [List.nodup_append]
    refine ⟨hcids, List.nodup_singleton _, ?_⟩
    intro a ha hb
    obtain ⟨c0, hc0, rfl⟩ := List.mem_map.1 ha
    have hb2 : c0.cid = cid := by simpa using hb
    exact hfresh c0 hc0 hb2
  · intro T l hl a ha
    have hl2 : JSMap.get s.clientsBySession T = some l := hl
    obtain ⟨c, hc2, hT⟩ := hcp T l hl2 a ha
    exact ⟨c, conn_wssOnConnection_found cid uid s a c hc2, hT⟩

theorem inv_subscribeStep (s : GState) (cid : Nat) (sid : Option JVal)
    (h : Inv s) (hc : (s.conn cid).isSome = true) :
    Inv (subscribeStep cid sid s).1 := by
  obtain ⟨hu, hsk, hcids, hcp⟩ := h
  obtain ⟨c0, hc0⟩ : ∃ c0, s.conn cid = some c0 := Option.isSome_iff_exists.1 hc
  refine ⟨hu, ?_, ?_, ?_⟩
  · have h0 : (JSMap.keys (if JSMap.has s.clientsBySession sid then s.clientsBySession
        else JSMap.set s.clientsBySession sid [])).Nodup := by
      by_cases hh : JSMap.has s.clientsBySession sid
      · rw [if_pos hh]; exact hsk
      · rw [if_neg hh]; exact JSMap.keys_nodup_set _ _ _ hsk
    exact JSMap.keys_nodup_set _ _ _ h0
  · have e : (subscribeStep cid sid s).1.conns.map Conn.cid = s.conns.map Conn.cid := by
      have e2 : (subscribeStep cid sid s).1.conns
          = s.conns.map (fun c =>
              if c.cid = cid then
                { c with subscribedSessions := JSSet.add c.subscribedSessions sid }
              else c) := rfl
      rw [e2, List.map_map]
      apply List.map_congr_left
      intro c _
      by_cases hcc : c.cid = cid <;> simp [hcc]
    rw [e]
    exact hcids
  · intro T l hl a ha
    by_cases hT : T = sid
    · subst hT
      rw [subscribeStep_get_self] at hl
      obtain rfl : l = JSSet.add
          ((JSMap.get (if JSMap.has s.clientsBySession T then s.clientsBySession
                       else JSMap.set s.clientsBySession T []) T).getD []) cid :=
        (Option.some.inj hl).symm
      rcases (JSSet.mem_add _ _ _).1 ha with hmem | rfl
      · by_cases hh : JSMap.has s.clientsBySession T
        · rw [if_pos hh] at hmem
          obtain ⟨cur0, hcur0⟩ : ∃ cur0, JSMap.get s.clientsBySession T = some cur0 := by
            cases hg : JSMap.get s.clientsBySession T with
            | none => rw [JSMap.has, hg] at hh; simp at hh
            | some cur0 => exact ⟨cur0, rfl⟩
          rw [hcur0] at hmem
          obtain ⟨c', hc', hT'⟩ := hcp T cur0 hcur0 a (by simpa using hmem)
          by_cases hcc : c'.cid = cid
          · have haa : a = cid := by rw [← conn_cid s a c' hc', hcc]
            subst haa
            exact ⟨_, conn_subscribeStep_self s _ _ c' hc',
              (JSSet.mem_add _ _ _).2 (Or.inl hT')⟩
          · exact ⟨c', conn_subscribeStep_other s _ _ _ c' hc' hcc, hT'⟩
        · rw [if_neg hh, JSMap.get_set_self] at hmem
          simp at hmem
      · exact ⟨_, conn_subscribeStep_self s _ _ c0 hc0, JSSet.self_mem_add _ _⟩
    · rw [subscribeStep_get_ne s cid sid T hT] at hl
      obtain ⟨c', hc', hT'⟩ := hcp T l hl a ha
      by_cases hcc : c'.cid = cid
      · have haa : a = cid := by rw [← conn_cid s a c' hc', hcc]
        subst haa
        exact ⟨_, conn_subscribeStep_self s _ _ c' hc',
          (JSSet.mem_add _ _ _).2 (Or.inl hT')⟩
      · exact ⟨c', conn_subscribeStep_other s _ _ _ c' hc' hcc, hT'⟩

theorem inv_unsubscribeStep (s : GState) (cid : Nat) (sid : Option JVal)
    (h : Inv s) : Inv (unsubscribeStep cid sid s).1 := by
  obtain ⟨hu, hsk, hcids, hcp⟩ := h
  refine ⟨hu, ?_, ?_, ?_⟩
  · by_cases hh : JSMap.has s.clientsBySession sid
    · have e : (unsubscribeStep cid sid s).1.clientsBySession
          = JSMap.set s.clientsBySession sid
              (JSSet.del ((JSMap.get s.clientsBySession sid).getD []) cid) := by
        simp [unsubscribeStep, setConnSubs, hh]
      rw [e]
      exact JSMap.keys_nodup_set _ _ _ hsk
    · have e : (unsubscribeStep cid sid s).1.clientsBySession = s.clientsBySession := by
        simp [unsubscribeStep, setConnSubs, hh]
      rw [e]
      exact hsk
  · have e : (unsubscribeStep cid sid s).1.conns.map Conn.cid = s.conns.map Conn.cid := by
      have e2 : (unsubscribeStep cid sid s).1.conns
          = s.conns.map (fun c =>
              if c.cid = cid then
                { c with subscribedSessions := JSSet.del c.subscribedSessions sid }
              else c) := rfl
      rw [e2, List.map_map]
      apply List.map_congr_left
      intro c _
      by_cases hcc : c.cid = cid <;> simp [hcc]
    rw [e]
    exact hcids
  · intro T l hl a ha
    by_cases hT : T = sid
    · subst hT
      by_cases hh : JSMap.has s.clientsBySession T
      · obtain ⟨cur0, hcur0⟩ : ∃ cur0, JSMap.get s.clientsBySession T = some cur0 := by
          cases hg : JSMap.get s.clientsBySession T with
          | none => rw [JSMap.has, hg] at hh; simp at hh
          | some cur0 => exact ⟨cur0, rfl⟩
        rw [unsubscribeStep_get s cid T cur0 hcur0] at hl
        obtain rfl : l = JSSet.del cur0 cid := (Option.some.inj hl).symm
        obtain ⟨hmem, hne⟩ := (JSSet.mem_del _ _ _).1 ha
        obtain ⟨c', hc', hT'⟩ := hcp T cur0 hcur0 a hmem
        have hcc : c'.cid = a := conn_cid s a c' hc'
        refine ⟨c', conn_unsubscribeStep_other s _ _ _ c' hc' ?_, hT'⟩
        rw [hcc]
        exact hne
      · have e : (unsubscribeStep cid T s).1.clientsBySession = s.clientsBySession := by
          simp [unsubscribeStep, setConnSubs, hh]
        rw [e] at hl
        rw [JSMap.has_false_get _ _ (by simpa using hh)] at hl
        exact absurd hl (by simp)
    · rw [unsubscribeStep_get_ne s cid sid T hT] at hl
      obtain ⟨c', hc', hT'⟩ := hcp T l hl a ha
      by_cases hcc : c'.cid = cid
      · have haa : a = cid := by rw [← conn_cid s a c' hc', hcc]
        subst haa
        exact ⟨_, conn_unsubscribeStep_self s _ _ c' hc',
          (JSSet.mem_del _ _ _).2 ⟨hT', hT⟩⟩
      · exact ⟨c', conn_unsubscribeStep_other s _ _ _ c' hc' hcc, hT'⟩

theorem inv_wsOnMessage (s : GState) (cid : Nat) (data : Option JVal)
    (h : Inv s) (hc : (s.conn cid).isSome = true) :
    Inv (wsOnMessage cid data s).1 := by
  cases data with
  | none => exact h
  | some msg =>
      cases hty : jsField msg "type" with
      | error e => simpa [wsOnMessage, hty] using h
      | ok ty =>
          by_cases h1 : ty = some (JVal.str "subscribe_session")
          · have hne : ty ≠ some (JVal.str "unsubscribe_session") := by
              subst h1; simp
            have e : (wsOnMessage cid (some msg) s).1
                = (subscribeStep cid
                    (((jsField msg "session_id").toOption).getD none) s).1 := by
              simp [wsOnMessage, hty, h1, hne]
            rw [e]
            exact inv_subscribeStep s cid _ h hc
          · by_cases h2 : ty = some (JVal.str "unsubscribe_session")
            · have e : (wsOnMessage cid (some msg) s).1
                  = (unsubscribeStep cid
                      (((jsField msg "session_id").toOption).getD none) s).1 := by
                simp [wsOnMessage, hty, h1, h2]
              rw [e]
              exact inv_unsubscribeStep s cid _ h
            · have e : (wsOnMessage cid (some msg) s).1 = s := by
                simp [wsOnMessage, hty, h1, h2]
              rw [e]
              exact h

theorem inv_wsOnClose (s : GState) (cid : Nat) (h : Inv s) :
    Inv (wsOnClose cid s) := by
  obtain ⟨hu, hsk, hcids, hcp⟩ := h
  cases hcn : s.conn cid with
  | none => rw [wsOnClose_of_none s cid hcn]; exact ⟨hu, hsk, hcids, hcp⟩
  | some c =>
      refine ⟨?_, ?_, ?_, ?_⟩
      · rw [wsOnClose_clientsByUser s cid c hcn]
        exact removeAndPrune_keys_nodup _ _ _ hu
      · rw [wsOnClose_clientsBySession s cid c hcn]
        exact foldRP_keys_nodup cid c.subscribedSessions _ hsk
      · have e : (wsOnClose cid s).conns.map Conn.cid = s.conns.map Conn.cid := by
          have e2 : (wsOnClose cid s).conns
              = s.conns.map (fun c2 =>
                  if c2.cid = cid then { c2 with readyState := 3 } else c2) := by
            simp [wsOnClose, hcn]
          rw [e2, List.map_map]
          apply List.map_congr_left
          intro c2 _
          by_cases hcc : c2.cid = cid <;> simp [hcc]
        rw [e]
        exact hcids
      · intro T l hl a ha
        rw [wsOnClose_clientsBySession s cid c hcn] at hl
        obtain ⟨l0, hl0, hsub⟩ := foldRP_get_sub cid c.subscribedSessions _ hsk T l hl
        obtain ⟨c', hc', hT'⟩ := hcp T l0 hl0 a (hsub ha)
        by_cases hcc : c'.cid = cid
        · have haa : a = cid := by rw [← conn_cid s a c' hc', hcc]
          subst haa
          have hcc2 : c' = c := Option.some.inj (hc'.symm.trans hcn)
          subst hcc2
          exact ⟨_, conn_wsOnClose_self s _ c' hcn, hT'⟩
        · exact ⟨c', conn_wsOnClose_other s _ _ c c' hcn hc' hcc, hT'⟩

theorem reach_inv (s : GState) (h : Reach s) : Inv s := by
  induction h with
  | init => exact inv_init
  | connect cid uid hr hfresh ih => exact inv_connect _ cid uid ih hfresh
  | message cid data hr hc ih => exact inv_wsOnMessage _ cid data ih hc
  | close cid hr ih => exact inv_wsOnClose _ cid ih

end Gateway

/-! ## Claims -/

section Claims

open Gateway

/-- C2: an upgrade request whose `token` query parameter is missing or
fails verification is answered with `401 Unauthorized` and the socket is
destroyed: the state is unchanged (no connection object is created, no
registry index gains an entry) and no message — in particular no
`connected` message — is ever sent. -/
theorem unauthenticated_upgrade_rejected
    (verify : String → Option Claim) (tokenQuery : Option String)
    (newCid : Nat) (s : GState)
    (h : tokenQuery = none ∨ ∃ t, tokenQuery = some t ∧ verify t = none) :
    serverOnUpgrade verify tokenQuery newCid s = (UpgradeResult.rejected, s, []) := by
  have hauth : authenticateWS verify tokenQuery = none := by
    rcases h with rfl | ⟨t, rfl, hv⟩
    · rfl
    · by_cases ht : t = "" <;> simp [authenticateWS, ht, hv]
  simp [serverOnUpgrade, hauth]

/-- Witness for C2 at a concrete rejected upgrade. -/
theorem unauthenticated_upgrade_rejected_witness :
    serverOnUpgrade (fun _ => none) none 0 GState.init
      = (UpgradeResult.rejected, GState.init, []) :=
  unauthenticated_upgrade_rejected (fun _ => none) none 0 GState.init (Or.inl rfl)

/-- C3 (the code): the client's `onopen` handler only resets the failure
counter and emits the local `connected` event; it writes no frame to the
socket, so no `subscribe_session` is re-issued for previously subscribed
topics on reconnection. -/
theorem onopen_reissues_no_subscriptions (st : Client.ClientState) :
    Client.onopen st
        = ({ reconnectAttempts := 0 }, [Client.ClientAction.emitEvt "connected"])
    ∧ (Client.onopen st).2.filter Client.ClientAction.isFrame = [] :=
  ⟨rfl, rfl⟩

/-- C6: after the n-th consecutive failure (1 ≤ n ≤ 5) the next attempt is
scheduled after `reconnectDelay n` ms; the delay for the first retry is
the fixed base 2000 ms, it doubles with each further consecutive failure
capped at 30000 ms, and once the counter has reached the maximum attempt
count no further attempt is scheduled. -/
theorem reconnect_backoff (st : Client.ClientState) (n : Nat)
    (hn1 : 1 ≤ n) (hn5 : n ≤ Client.maxReconnectAttempts)
    (hst : st.reconnectAttempts = n - 1) :
    Client.attemptReconnect st
        = ({ reconnectAttempts := n }, some (Client.reconnectDelay n))
    ∧ Client.reconnectDelay 1 = 2000
    ∧ (∀ m, Client.reconnectDelay (m + 1) = min (2 * Client.reconnectDelay m) 30000)
    ∧ Client.reconnectDelay n ≤ 30000
    ∧ (∀ st2 : Client.ClientState,
        Client.maxReconnectAttempts ≤ st2.reconnectAttempts →
        Client.attemptReconnect st2 = (st2, none)) := by
  obtain ⟨a0⟩ := st
  simp only [Client.maxReconnectAttempts] at hn5 ⊢
  simp only at hst
  refine ⟨?_, rfl, ?_, Nat.min_le_right _ _, ?_⟩
  · subst hst
    have hlt : ¬ (n - 1 ≥ 5) := by omega
    have hsucc : n - 1 + 1 = n := by omega
    simp [Client.attemptReconnect, Client.maxReconnectAttempts, hlt, hsucc,
      Client.reconnectDelay]
  · intro m
    rcases Nat.le_total (1000 * 2 ^ m) 30000 with hle | hle
    · rw [Client.reconnectDelay, Client.reconnectDelay, Nat.min_eq_left hle]
      congr 1
      rw [pow_succ]
      ring
    · rw [Client.reconnectDelay, Client.reconnectDelay, Nat.min_eq_right hle]
      have h1 : (30000 : ℕ) ≤ 1000 * 2 ^ (m + 1) := by
        calc (30000 : ℕ) ≤ 1000 * 2 ^ m := hle
        _ ≤ 1000 * 2 ^ (m + 1) :=
            Nat.mul_le_mul_left _ (Nat.pow_le_pow_right (by omega) (Nat.le_succ m))
      rw [Nat.min_eq_right h1, Nat.min_eq_right (by omega)]
  · intro st2 h2
    simp [Client.attemptReconnect, Client.maxReconnectAttempts, Nat.le_of_lt, h2]

/-- Witness for C6 at the first failure of a fresh client. -/
theorem reconnect_backoff_witness :
    (Client.attemptReconnect { reconnectAttempts := 0 }
        = ({ reconnectAttempts := 1 }, some (Client.reconnectDelay 1))
    ∧ Client.reconnectDelay 1 = 2000
    ∧ (∀ m, Client.reconnectDelay (m + 1) = min (2 * Client.reconnectDelay m) 30000)
    ∧ Client.reconnectDelay 1 ≤ 30000
    ∧ (∀ st2 : Client.ClientState,
        Client.maxReconnectAttempts ≤ st2.reconnectAttempts →
        Client.attemptReconnect st2 = (st2, none))) :=
  reconnect_backoff { reconnectAttempts := 0 } 1 (by decide) (by decide) rfl

/-- C10: a successful open resets the consecutive-failure counter to zero,
so a later drop restarts the backoff schedule from the first delay with
the full attempt budget. -/
theorem open_resets_backoff (st : Client.ClientState) :
    (Client.onopen st).1.reconnectAttempts = 0
    ∧ Client.attemptReconnect (Client.onopen st).1
        = ({ reconnectAttempts := 1 }, some (Client.reconnectDelay 1)) :=
  ⟨rfl, rfl⟩

/-- C9: a broadcast message that is not decodable JSON, or whose decoded
value has no `session_id` field, delivers nothing to any connection and
leaves the registry state exactly as it was, so every subsequent envelope
is processed as if the bad message had never arrived. -/
theorem malformed_envelope_dropped (s : GState) (data : Option JVal)
    (h : data = none ∨ ∃ u, data = some u ∧
        (jsField u "session_id" = Except.error () ∨
         jsField u "session_id" = Except.ok none)) :
    redisStep data s = (s, [])
    ∧ ∀ next : Option JVal, redisStep next (redisStep data s).1 = redisStep next s := by
  have hmain : redisOnMessage data s = [] := by
    rcases h with rfl | ⟨u, rfl, herr | hnone⟩
    · rfl
    · simp [redisOnMessage, herr]
    · simp [redisOnMessage, hnone, truthy]
  exact ⟨by simp [redisStep, hmain], fun next => by simp [redisStep]⟩

/-- Witness for C9 at a concrete topic-less envelope in a concrete state. -/
theorem malformed_envelope_dropped_witness :
    redisStep (some (JVal.obj [("phase", JVal.str "evaluation")])) exSub = (exSub, [])
    ∧ ∀ next : Option JVal,
        redisStep next (redisStep (some (JVal.obj [("phase", JVal.str "evaluation")])) exSub).1
          = redisStep next exSub :=
  malformed_envelope_dropped exSub _ (Or.inr ⟨_, rfl, Or.inr rfl⟩)

/-- C5 counterexample: the frame `{"type":"subscribe_session"}` — a
recognized type with a malformed shape (no `session_id`) — does mutate
the registry: the connection is subscribed under the `undefined` topic
key, so the claim that such frames leave both indexes unchanged is false. -/
theorem malformed_subscribe_mutates_registry :
    JSMap.get (wsOnMessage 0 (some (JVal.obj [("type", JVal.str "subscribe_session")]))
        exConn0).1.clientsBySession none = some [0]
    ∧ (wsOnMessage 0 (some (JVal.obj [("type", JVal.str "subscribe_session")]))
        exConn0).1 ≠ exConn0 := by
  decide

/-- C5 as amended: frames that are invalid JSON, a JSON `null`, or carry
anything other than the two recognized `type` values leave the connection
open and the whole state (both indexes and every subscription set)
unchanged, with nothing sent. -/
theorem unrecognized_frame_ignored (s : GState) (cid : Nat) (data : Option JVal)
    (h : ∀ msg, data = some msg →
        ((jsField msg "type").toOption.getD none ≠ some (JVal.str "subscribe_session") ∧
         (jsField msg "type").toOption.getD none ≠ some (JVal.str "unsubscribe_session"))) :
    wsOnMessage cid data s = (s, []) := by
  cases data with
  | none => rfl
  | some msg =>
      obtain ⟨h1, h2⟩ := h msg rfl
      cases hty : jsField msg "type" with
      | error e => simp [wsOnMessage, hty]
      | ok ty =>
          rw [hty] at h1 h2
          simp only [Except.toOption, Option.getD_some] at h1 h2
          simp [wsOnMessage, hty, h1, h2]

/-- Witness for C5's amended theorem: an unknown frame type in a concrete
state. -/
theorem unrecognized_frame_ignored_witness :
    wsOnMessage 0 (some (JVal.obj [("type", JVal.str "ping")])) exConn0 = (exConn0, []) :=
  unrecognized_frame_ignored exConn0 0 _
    (fun msg hm => by cases hm; exact ⟨by decide, by decide⟩)

end Claims

section ClaimsB

open Gateway

/-- C7: for a registered connection, processing `subscribe_session` for
topic T puts the connection into T's subscriber set and T into the
connection's subscription set and sends back a `subscribed` ack carrying
T; processing a subsequent `unsubscribe_session` for T removes the
connection from T's entry and T from the connection's subscription set. -/
theorem subscribe_then_unsubscribe (s : GState) (cid : Nat) (c : Conn) (T : String)
    (hc : s.conn cid = some c) :
    (∃ l, JSMap.get (wsOnMessage cid (some (subFrame T)) s).1.clientsBySession
        (some (JVal.str T)) = some l ∧ cid ∈ l)
    ∧ (∃ c1, (wsOnMessage cid (some (subFrame T)) s).1.conn cid = some c1
        ∧ some (JVal.str T) ∈ c1.subscribedSessions)
    ∧ (cid, subscribedAck (some (JVal.str T))) ∈ (wsOnMessage cid (some (subFrame T)) s).2
    ∧ (∀ l, JSMap.get (wsOnMessage cid (some (unsubFrame T))
          (wsOnMessage cid (some (subFrame T)) s).1).1.clientsBySession
          (some (JVal.str T)) = some l → cid ∉ l)
    ∧ (∀ c2, (wsOnMessage cid (some (unsubFrame T))
          (wsOnMessage cid (some (subFrame T)) s).1).1.conn cid = some c2 →
        some (JVal.str T) ∉ c2.subscribedSessions) := by
  rw [wsOnMessage_subFrame, wsOnMessage_unsubFrame]
  have hcc : c.cid = cid := conn_cid s cid c hc
  refine ⟨subscribeStep_get_mem s cid _, ?_, ?_, ?_, ?_⟩
  · rw [conn_subscribeStep, hc]
    refine ⟨_, rfl, ?_⟩
    simp only [hcc, if_pos rfl]
    exact JSSet.self_mem_add _ _
  · rw [subscribeStep_sends]
    exact List.mem_singleton_self _
  · intro l hl
    obtain ⟨l1, hg1, _⟩ := subscribeStep_get_mem s cid (some (JVal.str T))
    rw [unsubscribeStep_get _ cid _ l1 hg1] at hl
    obtain rfl : l = JSSet.del l1 cid := by
      exact (Option.some.inj hl).symm
    exact JSSet.not_mem_del _ _
  · intro c2 hc2
    rw [conn_unsubscribeStep, conn_subscribeStep, hc] at hc2
    simp [hcc] at hc2
    subst hc2
    exact JSSet.not_mem_del _ _

/-- Witness for C7: the concrete connection 0 subscribing to and
unsubscribing from `s1`. -/
theorem subscribe_then_unsubscribe_witness :
    (∃ l, JSMap.get (wsOnMessage 0 (some (subFrame "s1")) exConn0).1.clientsBySession
        (some (JVal.str "s1")) = some l ∧ 0 ∈ l)
    ∧ (∃ c1, (wsOnMessage 0 (some (subFrame "s1")) exConn0).1.conn 0 = some c1
        ∧ some (JVal.str "s1") ∈ c1.subscribedSessions)
    ∧ ((0 : Nat), subscribedAck (some (JVal.str "s1")))
        ∈ (wsOnMessage 0 (some (subFrame "s1")) exConn0).2
    ∧ (∀ l, JSMap.get (wsOnMessage 0 (some (unsubFrame "s1"))
          (wsOnMessage 0 (some (subFrame "s1")) exConn0).1).1.clientsBySession
          (some (JVal.str "s1")) = some l → 0 ∉ l)
    ∧ (∀ c2, (wsOnMessage 0 (some (unsubFrame "s1"))
          (wsOnMessage 0 (some (subFrame "s1")) exConn0).1).1.conn 0 = some c2 →
        some (JVal.str "s1") ∉ c2.subscribedSessions) :=
  subscribe_then_unsubscribe exConn0 0
    { cid := 0, userId := "u1", readyState := 1, subscribedSessions := [] } "s1"
    (by decide)

end ClaimsB

section ClaimsC

open Gateway

/-- C1 counterexample: with connection 0 an open subscriber of topic
`s1`, the envelope `{"session_id":"s1","type":"evil"}` is delivered with
`type` equal to `"evil"` — the envelope's own `type` field overwrites the
`session_update` marker, so the delivered message is not the envelope's
fields plus a `type = "session_update"` marker. -/
theorem broadcast_type_marker_overridden :
    JSMap.get exSub.clientsBySession (some (JVal.str "s1")) = some [0]
    ∧ (exSub.conn 0).map Conn.readyState = some 1
    ∧ redisOnMessage
        (some (.obj [("session_id", .str "s1"), ("type", .str "evil")])) exSub
        = [(0, [("type", JVal.str "evil"), ("session_id", JVal.str "s1")])]
    ∧ List.lookup "type" [("type", JVal.str "evil"), ("session_id", JVal.str "s1")]
        ≠ some (JVal.str "session_update") := by
  decide

/-- C1 as amended: a broadcast envelope whose `session_id` field holds a
truthy value `v` is delivered exactly to the connections that are in the
topic index entry for `v` at processing time and whose transport is open
(`readyState = 1`), each receiving `sessionUpdatePayload` — the marker
`type = "session_update"` assigned first then every envelope field spread
over it verbatim, so the marker survives only when the envelope has no
`type` field of its own; no other connection is sent anything. -/
theorem broadcast_fanout (s : GState) (kvs : JObj) (v : JVal)
    (hsid : List.lookup "session_id" kvs = some v)
    (htr : truthy (some v) = true) :
    (∀ cid, (cid, sessionUpdatePayload kvs) ∈ redisOnMessage (some (JVal.obj kvs)) s
        ↔ (cid ∈ (JSMap.get s.clientsBySession (some v)).getD []
           ∧ ∃ c, s.conn cid = some c ∧ c.readyState = 1))
    ∧ (∀ p ∈ redisOnMessage (some (JVal.obj kvs)) s,
        p.1 ∈ (JSMap.get s.clientsBySession (some v)).getD []
        ∧ p.2 = sessionUpdatePayload kvs)
    ∧ ((kvs.map Prod.fst).Nodup → "type" ∉ kvs.map Prod.fst →
        sessionUpdatePayload kvs = ("type", JVal.str "session_update") :: kvs) := by
  by_cases hhas : JSMap.has s.clientsBySession (some v)
  · have hred : redisOnMessage (some (JVal.obj kvs)) s
        = ((JSMap.get s.clientsBySession (some v)).getD []).filterMap (fun cid =>
            match s.conn cid with
            | some c =>
                if c.readyState = 1 then some (cid, sessionUpdatePayload kvs) else none
            | none => none) := by
      simp [redisOnMessage, jsField, hsid, htr, hhas, sessionUpdatePayload]
    refine ⟨?_, ?_, fun h1 h2 => sessionUpdatePayload_fresh kvs h1 h2⟩
    · intro cid
      rw [hred, List.mem_filterMap]
      constructor
      · rintro ⟨a, ha, hga⟩
        cases hconn : s.conn a with
        | none => rw [hconn] at hga; exact absurd hga (by simp)
        | some c =>
            rw [hconn] at hga
            have hga2 : (if c.readyState = 1
                then some (a, sessionUpdatePayload kvs) else none)
                = some (cid, sessionUpdatePayload kvs) := hga
            by_cases hrs : c.readyState = 1
            · rw [if_pos hrs] at hga2
              obtain ⟨rfl, -⟩ := Prod.mk.inj (Option.some.inj hga2)
              exact ⟨ha, c, hconn, hrs⟩
            · rw [if_neg hrs] at hga2
              exact absurd hga2 (by simp)
      · rintro ⟨hmem, c, hconn, hrs⟩
        refine ⟨cid, hmem, ?_⟩
        rw [hconn]
        show (if c.readyState = 1 then some (cid, sessionUpdatePayload kvs) else none)
            = some (cid, sessionUpdatePayload kvs)
        rw [if_pos hrs]
    · intro p hp
      rw [hred, List.mem_filterMap] at hp
      obtain ⟨a, ha, hga⟩ := hp
      cases hconn : s.conn a with
      | none => rw [hconn] at hga; exact absurd hga (by simp)
      | some c =>
          rw [hconn] at hga
          have hga2 : (if c.readyState = 1
              then some (a, sessionUpdatePayload kvs) else none) = some p := hga
          by_cases hrs : c.readyState = 1
          · rw [if_pos hrs] at hga2
            obtain rfl := Option.some.inj hga2
            exact ⟨ha, rfl⟩
          · rw [if_neg hrs] at hga2
            exact absurd hga2 (by simp)
  · have hget : JSMap.get s.clientsBySession (some v) = none :=
      JSMap.has_false_get _ _ (by simpa using hhas)
    have hred : redisOnMessage (some (JVal.obj kvs)) s = [] := by
      simp [redisOnMessage, jsField, hsid, htr, hhas]
    rw [hred, hget]
    refine ⟨fun cid => by simp, fun p hp => absurd hp (by simp),
      fun h1 h2 => sessionUpdatePayload_fresh kvs h1 h2⟩

/-- Witness for C1's amended theorem: the concrete `s1` envelope delivered
to the one open subscriber. -/
theorem broadcast_fanout_witness :
    (∀ cid, (cid, sessionUpdatePayload
          [("session_id", .str "s1"), ("phase", .str "evaluation")])
        ∈ redisOnMessage
            (some (JVal.obj [("session_id", .str "s1"), ("phase", .str "evaluation")]))
            exSub
        ↔ (cid ∈ (JSMap.get exSub.clientsBySession (some (JVal.str "s1"))).getD []
           ∧ ∃ c, exSub.conn cid = some c ∧ c.readyState = 1))
    ∧ (∀ p ∈ redisOnMessage
          (some (JVal.obj [("session_id", .str "s1"), ("phase", .str "evaluation")]))
          exSub,
        p.1 ∈ (JSMap.get exSub.clientsBySession (some (JVal.str "s1"))).getD []
        ∧ p.2 = sessionUpdatePayload
            [("session_id", .str "s1"), ("phase", .str "evaluation")])
    ∧ (([("session_id", JVal.str "s1"), ("phase", JVal.str "evaluation")].map
          Prod.fst).Nodup →
        "type" ∉ [("session_id", JVal.str "s1"), ("phase", JVal.str "evaluation")].map
          Prod.fst →
        sessionUpdatePayload [("session_id", .str "s1"), ("phase", .str "evaluation")]
          = ("type", JVal.str "session_update")
              :: [("session_id", .str "s1"), ("phase", .str "evaluation")]) :=
  broadcast_fanout exSub
    [("session_id", .str "s1"), ("phase", .str "evaluation")]
    (JVal.str "s1") rfl rfl

end ClaimsC

section ClaimsD

open Gateway

/-- C8: after the close handler runs for a connection of a reachable
state, the connection appears in no topic's subscriber set, the identity
index entry for its user no longer contains it, and if it was that
identity's last connection the identity key itself is gone. -/
theorem close_deregisters (s : GState) (cid : Nat) (c : Conn)
    (hs : Reach s) (hc : s.conn cid = some c) :
    (∀ T l, JSMap.get (wsOnClose cid s).clientsBySession T = some l → cid ∉ l)
    ∧ (∀ l, JSMap.get (wsOnClose cid s).clientsByUser c.userId = some l → cid ∉ l)
    ∧ (JSMap.get s.clientsByUser c.userId = some [cid] →
        JSMap.get (wsOnClose cid s).clientsByUser c.userId = none) := by
  obtain ⟨hu, hsk, hcids, hcp⟩ := reach_inv s hs
  refine ⟨?_, ?_, ?_⟩
  · intro T l hl
    rw [wsOnClose_clientsBySession s cid c hc] at hl
    refine foldRP_no_x cid c.subscribedSessions s.clientsBySession hsk ?_ T l hl
    intro T2 l2 hl2 hx2
    obtain ⟨c2, hc2, hT2⟩ := hcp T2 l2 hl2 cid hx2
    obtain rfl : c2 = c := Option.some.inj (hc2.symm.trans hc)
    exact hT2
  · intro l hl
    rw [wsOnClose_clientsByUser s cid c hc] at hl
    exact (removeAndPrune_get_self s.clientsByUser c.userId cid hu l hl).1
  · intro hone
    rw [wsOnClose_clientsByUser s cid c hc]
    exact removeAndPrune_get_singleton s.clientsByUser c.userId cid hu hone

/-- Witness for C8: closing the concrete subscribed connection. -/
theorem close_deregisters_witness :
    (∀ T l, JSMap.get (wsOnClose 0 exSub).clientsBySession T = some l → 0 ∉ l)
    ∧ (∀ l, JSMap.get (wsOnClose 0 exSub).clientsByUser "u1" = some l → 0 ∉ l)
    ∧ (JSMap.get exSub.clientsByUser "u1" = some [0] →
        JSMap.get (wsOnClose 0 exSub).clientsByUser "u1" = none) :=
  close_deregisters exSub 0
    { cid := 0, userId := "u1", readyState := 1,
      subscribedSessions := [some (JVal.str "s1")] }
    (Reach.message 0 (some (subFrame "s1"))
      (Reach.connect 0 "u1" Reach.init (by simp [GState.init])) (by decide))
    (by decide)

/-- C4 counterexample: in the reachable state where connection 0 has
subscribed to topic `s1` and then unsubscribed, the topic key `s1` is
still present and maps to the empty set — the `unsubscribe_session`
branch removes the member but never deletes the emptied key. -/
theorem unsubscribe_keeps_empty_topic_entry :
    Reach exUnsub
    ∧ JSMap.get exUnsub.clientsBySession (some (JVal.str "s1")) = some [] := by
  constructor
  · exact Reach.message 0 (some (unsubFrame "s1"))
      (Reach.message 0 (some (subFrame "s1"))
        (Reach.connect 0 "u1" Reach.init (by simp [GState.init])) (by decide))
      (by decide)
  · decide

/-- C4 as amended: the `unsubscribe_session` path removes the connection
from the topic's subscriber set but keeps the (possibly now empty) key;
only the close-time cleanup prunes — after the close handler runs, every
topic the connection was subscribed to either has no entry any more or a
nonempty one. -/
theorem topic_prune_on_close_only (s : GState) (cid : Nat) (c : Conn)
    (sid : Option JVal) (hs : Reach s) (hc : s.conn cid = some c) :
    (∀ l, JSMap.get s.clientsBySession sid = some l →
        JSMap.get (unsubscribeStep cid sid s).1.clientsBySession sid
          = some (JSSet.del l cid))
    ∧ (∀ T, T ∈ c.subscribedSessions →
        ∀ l, JSMap.get (wsOnClose cid s).clientsBySession T = some l →
          cid ∉ l ∧ l ≠ []) := by
  obtain ⟨hu, hsk, hcids, hcp⟩ := reach_inv s hs
  refine ⟨?_, ?_⟩
  · intro l hl
    exact unsubscribeStep_get s cid sid l hl
  · intro T hT l hl
    rw [wsOnClose_clientsBySession s cid c hc] at hl
    exact foldRP_prunes cid c.subscribedSessions s.clientsBySession T hsk hT l hl

/-- Witness for C4's amended theorem at the concrete subscribed state. -/
theorem topic_prune_on_close_only_witness :
    (∀ l, JSMap.get exSub.clientsBySession (some (JVal.str "s1")) = some l →
        JSMap.get (unsubscribeStep 0 (some (JVal.str "s1")) exSub).1.clientsBySession
            (some (JVal.str "s1"))
          = some (JSSet.del l 0))
    ∧ (∀ T, T ∈ Conn.subscribedSessions
          { cid := 0, userId := "u1", readyState := 1,
            subscribedSessions := [some (JVal.str "s1")] } →
        ∀ l, JSMap.get (wsOnClose 0 exSub).clientsBySession T = some l →
          0 ∉ l ∧ l ≠ []) :=
  topic_prune_on_close_only exSub 0
    { cid := 0, userId := "u1", readyState := 1,
      subscribedSessions := [some (JVal.str "s1")] }
    (some (JVal.str "s1"))
    (Reach.message 0 (some (subFrame "s1"))
      (Reach.connect 0 "u1" Reach.init (by simp [GState.init])) (by decide))
    (by decide)

end ClaimsD
